import Mathlib

/-!
Shallow embedding of `src/commandz.ts` (the `Action` hierarchy: `Action`,
`SimpleOption`, `NumberParser`, `StringParser`, `ActionSelector`), used to
check the natural-language specification of the command-grammar engine.

The TypeScript code mutates node objects in place; here every node carries
its mutable fields in an explicit `AState`, and `validate`/`run` return the
updated node.  Machine numbers that can become `NaN` (the running token
counter, which receives `tokenId += <number>action.tokensUsed` where the
getter may yield `undefined`) are modelled by `JNum`; `undefined` values by
`Option`.
-/

namespace Commandz

/-- Model of a JavaScript number as used for token counters: either a
natural count or `NaN` (which arises from `undefined + n`). -/
inductive JNum where
  | nan : JNum
  | int : Nat → JNum
deriving Repr, DecidableEq

/-- JS comparison `a <= b` with `b` a plain length; `NaN <= b` is `false`. -/
def JNum.le : JNum → Nat → Bool
  | .nan, _ => false
  | .int n, b => n ≤ b

/-- JS `tokenId += <number>tu` where `tu : number|undefined`:
`undefined` or `NaN` on either side yields `NaN`. -/
def JNum.addOpt : JNum → Option JNum → JNum
  | _, none => .nan
  | _, some .nan => .nan
  | .nan, some (.int _) => .nan
  | .int n, some (.int k) => .int (n + k)

/-- JS `tokenId + 1` (`NaN + 1 = NaN`). -/
def JNum.add1 : JNum → JNum
  | .nan => .nan
  | .int n => .int (n + 1)

/-- `Array.prototype.slice(start)` coerces a `NaN` start index to `0`. -/
def JNum.sliceIdx : JNum → Nat
  | .nan => 0
  | .int n => n

/-- JS test `tokenCount > prevTokenCount` for `tokenCount : number|undefined`
and `prevTokenCount : Int` (initially `-1`); `undefined`/`NaN` compare
`false`. -/
def JNum.optGt : Option JNum → Int → Bool
  | some (.int n), p => p < (n : Int)
  | _, _ => false

/-! ## The JS `Number(string)` conversion (ECMAScript StringNumericLiteral)

`NumberParser.validation` does `let output = Number(this.input[0]); if (isNaN(output)) ...`.
We model exactly the predicate `isNaN(Number(s))`. -/

/-- ECMAScript `StrWhiteSpaceChar` (white space and line terminators trimmed
by `Number(string)`). -/
def isJsSpace (c : Char) : Bool :=
  c.toNat == 9 || c.toNat == 10 || c.toNat == 11 || c.toNat == 12 || c.toNat == 13 ||
  c.toNat == 32 || c.toNat == 160 || c.toNat == 0x1680 ||
  (0x2000 ≤ c.toNat && c.toNat ≤ 0x200A) ||
  c.toNat == 0x2028 || c.toNat == 0x2029 || c.toNat == 0x202F ||
  c.toNat == 0x205F || c.toNat == 0x3000 || c.toNat == 0xFEFF

/-- Strip leading and trailing JS white space. -/
def jsTrimChars (cs : List Char) : List Char :=
  ((cs.dropWhile isJsSpace).reverse.dropWhile isJsSpace).reverse

def isDecDigitCh (c : Char) : Bool := 48 ≤ c.toNat && c.toNat ≤ 57

def isHexDigitCh (c : Char) : Bool :=
  (48 ≤ c.toNat && c.toNat ≤ 57) || (97 ≤ c.toNat && c.toNat ≤ 102) ||
  (65 ≤ c.toNat && c.toNat ≤ 70)

def isOctDigitCh (c : Char) : Bool := 48 ≤ c.toNat && c.toNat ≤ 55

def isBinDigitCh (c : Char) : Bool := c == '0' || c == '1'

/-- ECMAScript `ExponentPart?` at the end of a decimal literal:
either nothing, or `e|E` followed by an optional sign and ≥ 1 digits. -/
def expTailOk (cs : List Char) : Bool :=
  match cs with
  | [] => true
  | c :: rest =>
    (c == 'e' || c == 'E') &&
    (let ds := match rest with
               | s :: tl => if s == '+' || s == '-' then tl else rest
               | [] => []
     !ds.isEmpty && ds.all isDecDigitCh)

/-- ECMAScript `StrUnsignedDecimalLiteral`:
`Infinity`, `DecimalDigits . DecimalDigits? ExponentPart?`,
`. DecimalDigits ExponentPart?`, or `DecimalDigits ExponentPart?`. -/
def strUnsignedDecOk (cs : List Char) : Bool :=
  if cs == "Infinity".toList then true
  else
    let p := cs.span isDecDigitCh
    match p.2 with
    | '.' :: rest2 =>
      let q := rest2.span isDecDigitCh
      (!p.1.isEmpty || !q.1.isEmpty) && expTailOk q.2
    | _ => !p.1.isEmpty && expTailOk p.2

/-- ECMAScript `StrDecimalLiteral` (optional sign). -/
def strDecimalOk (cs : List Char) : Bool :=
  match cs with
  | c :: rest => if c == '+' || c == '-' then strUnsignedDecOk rest else strUnsignedDecOk cs
  | [] => strUnsignedDecOk []

/-- ECMAScript `NonDecimalIntegerLiteral`: `0x`/`0X` hex, `0o`/`0O` octal,
`0b`/`0B` binary (no sign allowed). -/
def nonDecIntOk (cs : List Char) : Bool :=
  match cs with
  | '0' :: x :: rest =>
    ((x == 'x' || x == 'X') && !rest.isEmpty && rest.all isHexDigitCh) ||
    ((x == 'o' || x == 'O') && !rest.isEmpty && rest.all isOctDigitCh) ||
    ((x == 'b' || x == 'B') && !rest.isEmpty && rest.all isBinDigitCh)
  | _ => false

/-- The predicate `isNaN(Number(s))` for a JS string `s`: the trimmed string
is non-empty and matches no `StrNumericLiteral` production.  (An empty or
all-whitespace string converts to `0`, which is not `NaN`.) -/
def jsStrIsNaN (s : String) : Bool :=
  let cs := jsTrimChars s.toList
  if cs.isEmpty then false
  else !(strDecimalOk cs || nonDecIntOk cs)

/-! ## Data model: the `Action` class hierarchy -/

/-- `enum SelectionMode { FIRST = 0, LAST, BEST_MATCH_FIRST, BEST_MATCH_LAST }`. -/
inductive SelectionMode where
  | FIRST : SelectionMode
  | LAST : SelectionMode
  | BEST_MATCH_FIRST : SelectionMode
  | BEST_MATCH_LAST : SelectionMode
deriving Repr, DecidableEq

/-- A runtime result value (`T`/`any` in the source).  `NumberParser` yields
the JS number `Number(src)` (identified here by its source token, since no
claim computes with the numeric value); `StringParser` yields the raw token;
a host-defined `Action` subclass yields an opaque host value. -/
inductive RVal where
  | num : String → RVal
  | str : String → RVal
  | hostVal : Nat → RVal
deriving Repr, DecidableEq

/-- `OptionResults extends Array<OptionResults|any>`: the array built by
`Action.runOptions`.  `items` are the `push`ed entries (each an
`option._result`, possibly `undefined`); `named` are the
`optionResults[option.names[0]] = option._result` property assignments
(later assignment to the same key overwrites). -/
structure OptionResults where
  items : List (Option RVal)
  named : List (String × Option RVal)
deriving Repr, DecidableEq

/-- JS property assignment `rs[key] = v`: overwrite an existing key, else
append. -/
def OptionResults.setNamed (rs : OptionResults) (key : String) (v : Option RVal) : OptionResults :=
  if rs.named.any (fun p => p.1 == key) then
    { rs with named := rs.named.map (fun p => if p.1 == key then (key, v) else p) }
  else
    { rs with named := rs.named ++ [(key, v)] }

/-- JS `rs.push(v)`. -/
def OptionResults.push (rs : OptionResults) (v : Option RVal) : OptionResults :=
  { rs with items := rs.items ++ [v] }

/-- The empty `OptionResults` array `[]`. -/
def OptionResults.empty : OptionResults := ⟨[], []⟩

/-- Constructor-time (immutable) fields of `Action`:
`_hasName`, `_names`, `_isCalledByName`. -/
structure Meta where
  hasName : Bool
  names : List String
  isCalledByName : Bool
deriving Repr, DecidableEq

/-- The `Action` constructor logic on `(names?, isCalledByName)`:
`names` defined and non-empty sets `_hasName`/`_names`/`_isCalledByName`;
otherwise `_hasName = false` and `_isCalledByName = false`. -/
def mkMeta (names : Option (List String)) (isCalledByName : Bool) : Meta :=
  match names with
  | some ns => if ns.length > 0 then ⟨true, ns, isCalledByName⟩ else ⟨false, [], false⟩
  | none => ⟨false, [], false⟩

/-- Which concrete class a node is.  `NumberParser` and `StringParser` are
the `SimpleOption` leaves; `host` stands for a host-defined subclass of the
abstract `Action` (the source leaves `validation()` and `runner()` abstract:
the host's `validation()` is modelled as returning the fixed boolean `hval`,
its `runner()` as returning the fixed value `hres`); `selector` is
`ActionSelector` with its `_mode`. -/
inductive Kind where
  | numberParser : Kind
  | stringParser : Kind
  | host : Bool → RVal → Kind
  | selector : SelectionMode → Kind
deriving Repr, DecidableEq

/-- Mutable fields of `Action` (and `ActionSelector._usedAction`, kept here
as an index into `_options` and unused for other kinds):
`_input`, `_tokensUsed`, `_optionResults`, `_isValid`, `_result`. -/
structure AState where
  input : Option (List String)
  tokensUsed : Option JNum
  optionResults : OptionResults
  isValid : Bool
  result : Option RVal
  usedAction : Option Nat
deriving Repr, DecidableEq

/-- Field values of a freshly constructed node. -/
def AState.init : AState :=
  { input := none, tokensUsed := none, optionResults := OptionResults.empty,
    isValid := false, result := none, usedAction := none }

/-- A grammar node: its class, constructor metadata, mutable state and
`_options` children. -/
inductive ANode where
  | mk : Kind → Meta → AState → List ANode → ANode
deriving Repr

def ANode.kindOf : ANode → Kind
  | .mk k _ _ _ => k

def ANode.metaOf : ANode → Meta
  | .mk _ m _ _ => m

def ANode.stOf : ANode → AState
  | .mk _ _ st _ => st

def ANode.optsOf : ANode → List ANode
  | .mk _ _ _ opts => opts

/-- Whether the node is an `ActionSelector`. -/
def Kind.isSelector : Kind → Bool
  | .selector _ => true
  | _ => false

/-- The `isValid` getter (returns the `_isValid` field). -/
def ANode.isValidGet (a : ANode) : Bool := a.stOf.isValid

/-- The `result` getter (returns the `_result` field). -/
def ANode.resultGet (a : ANode) : Option RVal := a.stOf.result

/-- The `tokensUsed` getter.  `SimpleOption` overrides it with
`this._isValid ? (this.isCalledByName ? 2 : 1) : undefined`; `Action` (and
hence `ActionSelector` and host composites) uses
`this._isValid ? this._tokensUsed : undefined`. -/
def ANode.tokensUsedGet (a : ANode) : Option JNum :=
  match a.kindOf with
  | .numberParser | .stringParser =>
    if a.stOf.isValid then some (.int (if a.metaOf.isCalledByName then 2 else 1)) else none
  | _ => if a.stOf.isValid then a.stOf.tokensUsed else none

/-- `Action.checkName(usedName)` applied to `input[0]`:
`this._names.some(name => name === usedName)`; when `input` is empty,
`input[0]` is `undefined` and no string name equals it. -/
def checkName (names : List String) (tok : Option String) : Bool :=
  match tok with
  | some t => names.any (fun n => n == t)
  | none => false

/-- The abstract `validation()` method, dispatched by class, applied to the
stored `this.input` and the current `this._result`; returns the validity and
the (possibly updated) `_result`.  `NumberParser.validation` computes
`Number(this.input[0])`, stores it in `this._result` when not `NaN`;
`StringParser.validation` is `this.input.length !== 0`;
a host subclass returns its own verdict; `ActionSelector.validation` is
`return true`. -/
def validationOf (k : Kind) (input : Option (List String)) (res : Option RVal) :
    Bool × Option RVal :=
  match k with
  | .numberParser =>
    match input with
    | some (t :: _) => if jsStrIsNaN t then (false, res) else (true, some (.num t))
    | _ => (false, res)
  | .stringParser =>
    match input with
    | some l => (!l.isEmpty, res)
    | none => (false, res)
  | .host hval _ => (hval, res)
  | .selector _ => (true, res)

/-! ## `validate` and its loops

`Action.validate(input)` clears `_tokensUsed` and `_result` (note: not
`_isValid`), performs the name check when `isCalledByName`, stores
`_input`, then evaluates
`return this.validateOptions() ? this._isValid = this.validation() : false`.
`ActionSelector.validate` first clears `_usedAction` and then calls the
base `validate`; `validateOptions` is virtual. -/

mutual

/-- `Action.validate` / `ActionSelector.validate`. Returns the returned
boolean and the updated node. -/
def ANode.validate (a : ANode) (input : List String) : Bool × ANode :=
  match a with
  | .mk k m st opts =>
    let st := if k.isSelector then { st with usedAction := none } else st
    let st := { st with tokensUsed := none, result := none }
    if m.isCalledByName then
      if checkName m.names input.head? then
        ANode.validateStep k m { st with input := some (input.drop 1) } opts
      else
        (false, .mk k m st opts)
    else
      ANode.validateStep k m { st with input := some input } opts
termination_by (sizeOf a, 4)

/-- The tail of `Action.validate` once `this._input` is set: the virtual
`validateOptions` call followed, on success, by
`this._isValid = this.validation()`. -/
def ANode.validateStep (k : Kind) (m : Meta) (st : AState) (opts : List ANode) :
    Bool × ANode :=
  match k with
  | .selector mode =>
    -- ActionSelector.validateOptions: the switch over this._mode, then
    -- `return this._usedAction ? true : false`; on true the base validate
    -- assigns `this._isValid = this.validation()` (which returns true).
    let p := selectorValidateOptions mode opts (st.input.getD [])
    if p.2.isSome then
      (true, .mk k m { st with usedAction := p.2, isValid := true } p.1)
    else
      (false, .mk k m { st with usedAction := none } p.1)
  | _ =>
    -- Action.validateOptions: sequential child validation, then
    -- `this._tokensUsed = this.hasName ? tokenId + 1 : tokenId; return true`.
    let r := ANode.validateOptionsLoop (st.input.getD []) opts (.int 0)
    if r.2.1 then
      let st := { st with tokensUsed := some (if m.hasName then r.2.2.add1 else r.2.2) }
      let v := validationOf k st.input st.result
      (v.1, .mk k m { st with isValid := v.1, result := v.2 } r.1)
    else
      (false, .mk k m st r.1)
termination_by (sizeOf opts, 3)

/-- The `for` loop of `Action.validateOptions`:
while `i < this._options.length && tokenId <= input.length`, validate
`this._options[i]` against `input.slice(tokenId)`; if it set `_isValid`,
`tokenId += <number>this._options[i].tokensUsed` (the getter: `undefined`
makes `tokenId` `NaN`), else `return false`.  Returns the updated children,
the returned boolean and the final `tokenId`. -/
def ANode.validateOptionsLoop (input : List String) (opts : List ANode) (tokenId : JNum) :
    List ANode × Bool × JNum :=
  match opts with
  | [] => ([], true, tokenId)
  | o :: rest =>
    if tokenId.le input.length then
      let o' := (o.validate (input.drop tokenId.sliceIdx)).2
      if o'.stOf.isValid then
        let r := ANode.validateOptionsLoop input rest (tokenId.addOpt o'.tokensUsedGet)
        (o' :: r.1, r.2)
      else
        (o' :: rest, false, tokenId)
    else
      (o :: rest, true, tokenId)
termination_by (sizeOf opts, 1)

/-- The `switch (this._mode)` of `ActionSelector.validateOptions`.  The
source lists `case SelectionMode.BEST_MATCH_FIRST` twice — the second block
(which compares with `>=`) is dead code — and has no case labelled
`BEST_MATCH_LAST`, which therefore falls through to the `default` branch
(the FIRST loop).  Returns the updated alternatives and the selected index
(`this._usedAction`, cleared to `undefined` before the switch runs). -/
def selectorValidateOptions (mode : SelectionMode) (opts : List ANode) (input : List String) :
    List ANode × Option Nat :=
  match mode with
  | .LAST => selectLastLoop input opts 0 none
  | .BEST_MATCH_FIRST => selectBestGtLoop input opts 0 (-1) none
  | .FIRST | .BEST_MATCH_LAST => selectFirstLoop input opts 0
termination_by (sizeOf opts, 2)

/-- `default` branch (`FIRST`, and `BEST_MATCH_LAST` by fall-through):
validate alternatives in order against the same input; the first valid one
becomes `_usedAction` and the loop `break`s (later alternatives untouched). -/
def selectFirstLoop (input : List String) (opts : List ANode) (i : Nat) :
    List ANode × Option Nat :=
  match opts with
  | [] => ([], none)
  | o :: rest =>
    let o' := (o.validate input).2
    if o'.stOf.isValid then
      (o' :: rest, some i)
    else
      let r := selectFirstLoop input rest (i + 1)
      (o' :: r.1, r.2)
termination_by (sizeOf opts, 1)

/-- `case SelectionMode.LAST`: validate every alternative; each valid one
overwrites `_usedAction`. -/
def selectLastLoop (input : List String) (opts : List ANode) (i : Nat) (used : Option Nat) :
    List ANode × Option Nat :=
  match opts with
  | [] => ([], used)
  | o :: rest =>
    let o' := (o.validate input).2
    let used' := if o'.stOf.isValid then some i else used
    let r := selectLastLoop input rest (i + 1) used'
    (o' :: r.1, r.2)
termination_by (sizeOf opts, 1)

/-- The (first, live) `case SelectionMode.BEST_MATCH_FIRST`: validate every
alternative; keep the one whose `tokensUsed` getter is a number strictly
greater than `prevTokenCount` (initially `-1`); `undefined`/`NaN` counts
never win. -/
def selectBestGtLoop (input : List String) (opts : List ANode) (i : Nat) (prev : Int)
    (used : Option Nat) : List ANode × Option Nat :=
  match opts with
  | [] => ([], used)
  | o :: rest =>
    let o' := (o.validate input).2
    if o'.stOf.isValid && JNum.optGt o'.tokensUsedGet prev then
      let n := match o'.tokensUsedGet with
               | some (.int n) => (n : Int)
               | _ => prev
      let r := selectBestGtLoop input rest (i + 1) n (some i)
      (o' :: r.1, r.2)
    else
      let r := selectBestGtLoop input rest (i + 1) prev used
      (o' :: r.1, r.2)
termination_by (sizeOf opts, 1)

end

/-! ## `run` and `runOptions`

`Action.run(input?)` (and the textually identical `ActionSelector.run`)
validates when an input is given, then, if `_isValid`, sets
`this._optionResults = this.runOptions()` and
`this._result = this.runner()`, else resets `this._optionResults = []`;
it returns `this._result`. -/

/-- The abstract `runner()` method, dispatched by class, reading the current
state and (for `ActionSelector`) the already-run children.
`NumberParser.runner` returns `this._result`; `StringParser.runner` returns
`this.input[0]`; a host subclass returns its own value;
`ActionSelector.runner` returns `this._usedAction.result` (when
`_usedAction` is `undefined` the JS property access would throw — a state
unreachable through `run`, modelled as `undefined`). -/
def runnerOf (k : Kind) (st : AState) (opts : List ANode) : Option RVal :=
  match k with
  | .numberParser => st.result
  | .stringParser =>
    match st.input with
    | some (t :: _) => some (.str t)
    | _ => none
  | .host _ hres => some hres
  | .selector _ =>
    match st.usedAction with
    | some i =>
      match opts[i]? with
      | some o => o.stOf.result
      | none => none
    | none => none

mutual

/-- `Action.run` with no argument (the `if (input) this.validate(input)` step
skipped): the body shared by `Action.run` and `ActionSelector.run`. -/
def ANode.runCore (a : ANode) : Option RVal × ANode :=
  match a with
  | .mk k m st opts =>
    if st.isValid then
      let p := ANode.runOptionsLoop opts OptionResults.empty
      let st := { st with optionResults := p.2 }
      let r := runnerOf k st p.1
      (r, .mk k m { st with result := r } p.1)
    else
      (st.result, .mk k m { st with optionResults := OptionResults.empty } opts)
termination_by (sizeOf a, 1)

/-- The loop of `Action.runOptions`: for each child, `option.run()`, then
`optionResults[option.names[0]] = option._result` when it has a name, then
`optionResults.push(option._result)`. -/
def ANode.runOptionsLoop (opts : List ANode) (acc : OptionResults) :
    List ANode × OptionResults :=
  match opts with
  | [] => ([], acc)
  | o :: rest =>
    let o' := (o.runCore).2
    let acc := if o'.metaOf.hasName then
                 acc.setNamed (o'.metaOf.names.headD "") o'.stOf.result
               else acc
    let acc := acc.push o'.stOf.result
    let r := ANode.runOptionsLoop rest acc
    (o' :: r.1, r.2)
termination_by (sizeOf opts, 1)

end

/-- `Action.run(input?)` / `ActionSelector.run(input?)`. -/
def ANode.run (a : ANode) (input : Option (List String)) : Option RVal × ANode :=
  match input with
  | some i => ((a.validate i).2).runCore
  | none => a.runCore

/-! ## Node constructors (the public `new ...` surface) -/

/-- `new NumberParser(names?, isCalledByName = false)` (the `SimpleOption`
constructor passes `[]` as `options`). -/
def newNumberParser (names : Option (List String) := none) (isCalledByName : Bool := false) :
    ANode :=
  .mk .numberParser (mkMeta names isCalledByName) AState.init []

/-- `new StringParser(names?, isCalledByName = false)`. -/
def newStringParser (names : Option (List String) := none) (isCalledByName : Bool := false) :
    ANode :=
  .mk .stringParser (mkMeta names isCalledByName) AState.init []

/-- A host-defined subclass of the abstract `Action`:
`new Action(options, names?, isCalledByName = true)` with the host's
`validation()` returning `hval` and `runner()` returning `hres`. -/
def newHostAction (hval : Bool) (hres : RVal) (options : List ANode)
    (names : Option (List String) := none) (isCalledByName : Bool := true) : ANode :=
  .mk (.host hval hres) (mkMeta names isCalledByName) AState.init options

/-- `new ActionSelector(options, names, isCalledByName = true, select = FIRST)`. -/
def newActionSelector (options : List ANode) (names : List String)
    (isCalledByName : Bool := true) (select : SelectionMode := .FIRST) : ANode :=
  .mk (.selector select) (mkMeta (some names) isCalledByName) AState.init options

/-! ## Derived definitions used in the statements -/

/-- Token consumption reported by a valid `SimpleOption` leaf: its
`tokensUsed` getter yields `2` when `isCalledByName`, else `1`. -/
def leafWeight (a : ANode) : Nat := if a.metaOf.isCalledByName then 2 else 1

/-- A freshly constructed `SimpleOption` leaf (a `NumberParser` or
`StringParser`, no children, not yet validated successfully). -/
def isFreshLeaf (a : ANode) : Prop :=
  (a.kindOf = .numberParser ∨ a.kindOf = .stringParser) ∧ a.optsOf = [] ∧ a.stOf.isValid = false

/-- Sample alternative consuming one token when valid: a positional
`StringParser`. -/
def sampleLeafAlt : ANode := newStringParser

/-- Sample alternative consuming two tokens when valid: a positional host
composite of two `StringParser`s. -/
def sampleWideAlt : ANode := newHostAction true (.hostVal 0) [newStringParser, newStringParser]

/-! ## Helper lemmas -/

/-- On every path of `validate`, either the method returned `true` with
`_isValid` set to `true`, or the node's `_result` is `undefined` (it is
cleared on entry and only `NumberParser.validation` re-sets it, on its
success path). -/
lemma validateStep_result_none (k : Kind) (m : Meta) (st : AState) (opts : List ANode)
    (h : st.result = none) :
    ((ANode.validateStep k m st opts).1 = true ∧
      (ANode.validateStep k m st opts).2.stOf.isValid = true) ∨
    (ANode.validateStep k m st opts).2.stOf.result = none := by
  cases k with
  | selector mode =>
    rw [ANode.validateStep]
    split
    · exact Or.inl ⟨rfl, rfl⟩
    · exact Or.inr h
  | numberParser =>
    rw [ANode.validateStep]
    case x_2 => intro a ha; cases ha
    split
    · dsimp only [validationOf]
      rcases hin : st.input with _ | ⟨_ | ⟨t, l⟩⟩ <;> simp [ANode.stOf, h]
      split <;> simp [h, ANode.stOf]
    · exact Or.inr h
  | stringParser =>
    rw [ANode.validateStep]
    case x_2 => intro a ha; cases ha
    split
    · refine Or.inr ?_
      dsimp only [validationOf]
      cases st.input <;> simp [h, ANode.stOf]
    · exact Or.inr h
  | host hval hres =>
    rw [ANode.validateStep]
    case x_2 => intro a ha; cases ha
    split
    · exact Or.inr (by simp [validationOf, ANode.stOf, h])
    · exact Or.inr h

/-- Either `validate` returned `true` and left the node valid, or the node's
`_result` is `undefined` afterwards. -/
lemma validate_result_cases (a : ANode) (input : List String) :
    ((a.validate input).1 = true ∧ (a.validate input).2.stOf.isValid = true) ∨
    (a.validate input).2.stOf.result = none := by
  obtain ⟨k, m, st, opts⟩ := a
  rw [ANode.validate]
  dsimp only
  split
  · split
    · exact validateStep_result_none _ _ _ _ rfl
    · exact Or.inr rfl
  · exact validateStep_result_none _ _ _ _ rfl

/-- `run` (without input) does not change `_isValid`. -/
lemma runCore_isValid (a : ANode) : (a.runCore).2.stOf.isValid = a.stOf.isValid := by
  obtain ⟨k, m, st, opts⟩ := a
  rw [ANode.runCore]
  split <;> rfl

/-- On an invalid node, `run` (without input) returns the stored `_result`. -/
lemma runCore_invalid (a : ANode) (h : a.stOf.isValid = false) :
    (a.runCore).1 = a.stOf.result := by
  obtain ⟨k, m, st, opts⟩ := a
  rw [ANode.runCore]
  simp only [ANode.stOf] at h
  simp [h, ANode.stOf]

/-- `validate` never changes a node's class or constructor metadata. -/
lemma validate_kind_meta (a : ANode) (input : List String) :
    ((a.validate input).2).kindOf = a.kindOf ∧ ((a.validate input).2).metaOf = a.metaOf := by
  obtain ⟨k, m, st, opts⟩ := a
  rw [ANode.validate]
  dsimp only
  have hstep : ∀ st', ((ANode.validateStep k m st' opts).2).kindOf = k ∧
      ((ANode.validateStep k m st' opts).2).metaOf = m := by
    intro st'
    cases k with
    | selector mode =>
      rw [ANode.validateStep]
      split <;> exact ⟨rfl, rfl⟩
    | numberParser =>
      rw [ANode.validateStep]
      all_goals try { intro a ha; cases ha }
      split <;> exact ⟨rfl, rfl⟩
    | stringParser =>
      rw [ANode.validateStep]
      all_goals try { intro a ha; cases ha }
      split <;> exact ⟨rfl, rfl⟩
    | host hval hres =>
      rw [ANode.validateStep]
      all_goals try { intro a ha; cases ha }
      split <;> exact ⟨rfl, rfl⟩
  split
  · split
    · exact hstep _
    · exact ⟨rfl, rfl⟩
  · exact hstep _

/-- Validity of a `SimpleOption` leaf after `validate` on a fresh (not
previously valid) state: the name check when `isCalledByName` (on mismatch
the stale `_isValid`, here `false`, survives) and then the class's
`validation()` on the remaining input. -/
lemma leaf_validate_isValid_fresh (k : Kind) (m : Meta) (st : AState) (s : List String)
    (hk : k = .numberParser ∨ k = .stringParser) (hfr : st.isValid = false) :
    (((ANode.mk k m st []).validate s).2).stOf.isValid =
      (if m.isCalledByName then
         checkName m.names s.head? && (validationOf k (some (s.drop 1)) none).1
       else (validationOf k (some s) none).1) := by
  have hsel : k.isSelector = false := by
    rcases hk with hk | hk <;> subst hk <;> rfl
  have hstep : ∀ st', st'.result = none →
      ((ANode.validateStep k m st' []).2).stOf.isValid = (validationOf k st'.input none).1 := by
    intro st' hres
    rcases hk with hk | hk <;> subst hk
    · rw [ANode.validateStep]
      all_goals try { intro a ha; cases ha }
      simp [ANode.validateOptionsLoop, ANode.stOf, hres]
    · rw [ANode.validateStep]
      all_goals try { intro a ha; cases ha }
      simp [ANode.validateOptionsLoop, ANode.stOf, hres]
  rw [ANode.validate]
  simp only [hsel, Bool.false_eq_true, if_false]
  by_cases hc : m.isCalledByName = true
  · by_cases hn : checkName m.names s.head? = true
    · simp only [hc, hn, if_true, Bool.true_and]
      exact hstep _ rfl
    · simp only [hc, if_true]
      rw [if_neg hn]
      simp only [ANode.stOf, hfr]
      simp [Bool.not_eq_true] at hn
      simp [hn]
  · simp only [if_neg hc]
    rw [hstep _ rfl]

/-- The `tokensUsed` getter of a valid leaf reports `2` for a by-name leaf
and `1` otherwise. -/
lemma tokensUsedGet_of_leaf (a : ANode)
    (hk : a.kindOf = .numberParser ∨ a.kindOf = .stringParser)
    (hv : a.stOf.isValid = true) :
    a.tokensUsedGet = some (.int (if a.metaOf.isCalledByName then 2 else 1)) := by
  obtain ⟨k, m, st, opts⟩ := a
  simp only [ANode.kindOf] at hk
  simp only [ANode.stOf] at hv
  rcases hk with hk | hk <;> subst hk <;>
    simp [ANode.tokensUsedGet, ANode.stOf, ANode.kindOf, ANode.metaOf, hv]

/-- A leaf's `validation()` only succeeds when its input slice is
non-empty (a `NumberParser` sees `Number(undefined) = NaN` on an empty
slice, a `StringParser` tests `length !== 0`). -/
lemma validationOf_leaf_nonempty (k : Kind) (inp : List String) (res : Option RVal)
    (hk : k = .numberParser ∨ k = .stringParser)
    (hv : (validationOf k (some inp) res).1 = true) : inp ≠ [] := by
  rcases hk with hk | hk <;> subst hk <;> cases inp <;> simp_all [validationOf]

/-- A fresh leaf that validates successfully consumed no more tokens than
its slice holds: the by-name case needs the name token plus a non-empty
remainder, the positional case a non-empty slice. -/
lemma leaf_validate_weight (k : Kind) (m : Meta) (st : AState) (s : List String)
    (hk : k = .numberParser ∨ k = .stringParser) (hfr : st.isValid = false)
    (hval : (((ANode.mk k m st []).validate s).2).stOf.isValid = true) :
    (if m.isCalledByName then 2 else 1) ≤ s.length := by
  rw [leaf_validate_isValid_fresh k m st s hk hfr] at hval
  by_cases hc : m.isCalledByName = true
  · rw [if_pos hc] at hval
    rw [if_pos hc]
    have h2 : (validationOf k (some (s.drop 1)) none).1 = true := by
      cases hcn : checkName m.names s.head? <;> rw [hcn] at hval <;> simp_all
    have := validationOf_leaf_nonempty k (s.drop 1) none hk h2
    have hlen : ¬ (s.length ≤ 1) := by
      intro hle
      exact this (List.drop_eq_nil_of_le hle)
    omega
  · rw [if_neg hc] at hval ⊢
    have := validationOf_leaf_nonempty k s none hk hval
    have : s.length ≠ 0 := by
      intro h0
      exact this (List.eq_nil_of_length_eq_zero h0)
    omega

/-- The `Action.validateOptions` loop over freshly constructed leaf children:
when it reports success it has consumed exactly the sum of the children's
leaf weights, stayed within the input, and left every child reporting its
weight through the `tokensUsed` getter. -/
lemma validateOptionsLoop_leaf_sum (opts : List ANode) (input : List String) (t : Nat)
    (hleaf : ∀ o ∈ opts, isFreshLeaf o) (ht : t ≤ input.length)
    (hok : (ANode.validateOptionsLoop input opts (.int t)).2.1 = true) :
    (ANode.validateOptionsLoop input opts (.int t)).2.2 =
      .int (t + (opts.map leafWeight).sum) ∧
    t + (opts.map leafWeight).sum ≤ input.length ∧
    ((ANode.validateOptionsLoop input opts (.int t)).1).map ANode.tokensUsedGet =
      opts.map (fun o => some (.int (leafWeight o))) := by
  induction opts generalizing t with
  | nil =>
    simp [ANode.validateOptionsLoop]
    omega
  | cons o rest ih =>
    obtain ⟨hko, hoo, hfo⟩ := hleaf o (List.mem_cons_self o rest)
    obtain ⟨k, m, st, oopts⟩ := o
    simp only [ANode.kindOf] at hko
    simp only [ANode.optsOf] at hoo
    simp only [ANode.stOf] at hfo
    subst hoo
    rw [ANode.validateOptionsLoop] at hok ⊢
    simp only [JNum.le, ht, decide_True, if_true, JNum.sliceIdx] at hok ⊢
    by_cases hv :
        (((ANode.mk k m st []).validate (input.drop t)).2).stOf.isValid = true
    · simp only [hv, if_true] at hok ⊢
      have hkm := validate_kind_meta (ANode.mk k m st []) (input.drop t)
      have hw := leaf_validate_weight k m st (input.drop t) hko hfo hv
      have hget := tokensUsedGet_of_leaf (((ANode.mk k m st []).validate (input.drop t)).2)
        (by rw [hkm.1]; exact hko) hv
      rw [hkm.2] at hget
      simp only [ANode.kindOf, ANode.metaOf] at hget
      have hwlen : (if m.isCalledByName then 2 else 1) ≤ input.length - t := by
        have := List.length_drop t input
        omega
      have haddeq : (JNum.int t).addOpt
          ((((ANode.mk k m st []).validate (input.drop t)).2).tokensUsedGet) =
          .int (t + (if m.isCalledByName then 2 else 1)) := by
        rw [hget]; rfl
      rw [haddeq] at hok ⊢
      have ihres := ih (fun o ho => hleaf o (List.mem_cons_of_mem _ ho))
        (t := t + (if m.isCalledByName then 2 else 1)) (by omega) hok
      refine ⟨?_, ?_, ?_⟩
      · rw [ihres.1]
        congr 1
        simp [leafWeight, ANode.metaOf]
        omega
      · have := ihres.2.1
        simp [leafWeight, ANode.metaOf]
        omega
      · simp only [List.map_cons]
        rw [hget, ihres.2.2]
        simp [leafWeight, ANode.metaOf]
    · rw [if_neg hv] at hok
      simp at hok

/-- `Action.runOptions` pushes exactly one entry per child — that child's
`_result` after its `run()` — and it runs every child. -/
lemma runOptionsLoop_spec (opts : List ANode) (acc : OptionResults) :
    ((ANode.runOptionsLoop opts acc).2).items =
      acc.items ++ ((ANode.runOptionsLoop opts acc).1).map (fun o => o.stOf.result) ∧
    ((ANode.runOptionsLoop opts acc).1).length = opts.length := by
  induction opts generalizing acc with
  | nil => simp [ANode.runOptionsLoop]
  | cons o rest ih =>
    rw [ANode.runOptionsLoop]
    dsimp only
    constructor
    · have h1 := (ih (((if ((o.runCore).2).metaOf.hasName then
        acc.setNamed (((o.runCore).2).metaOf.names.headD "") ((o.runCore).2).stOf.result
        else acc)).push ((o.runCore).2).stOf.result)).1
      rw [h1]
      have hpush : ∀ (a : OptionResults) (v : Option RVal), (a.push v).items = a.items ++ [v] := by
        intro a v; rfl
      have hnamed : ∀ (a : OptionResults) (key : String) (v : Option RVal),
          (a.setNamed key v).items = a.items := by
        intro a key v
        rw [OptionResults.setNamed]
        split <;> rfl
      split <;> simp [hpush, hnamed]
    · have h2 := (ih (((if ((o.runCore).2).metaOf.hasName then
        acc.setNamed (((o.runCore).2).metaOf.names.headD "") ((o.runCore).2).stOf.result
        else acc)).push ((o.runCore).2).stOf.result)).2
      simpa using h2

/-! ## Claims -/

/-- Claim C1 (code bug, evaluated at the failing input): a selector in
`BEST_MATCH_LAST` mode over `[sampleLeafAlt, sampleWideAlt]` on
`["x", "y"]` selects index 0 (the first valid alternative, consuming 1
token) and never validates the later alternative — which, validated on the
same input, is valid and consumes 2 tokens.  The claim says the
greatest-consumption alternative (index 1) is selected after traversing all
alternatives; the `switch` has no `BEST_MATCH_LAST` case (the block meant
for it is labelled `BEST_MATCH_FIRST` a second time, dead code), so the
mode falls through to the `default` FIRST behaviour. -/
theorem C1_best_match_last_takes_default_first_branch :
    ((newActionSelector [sampleLeafAlt, sampleWideAlt] [] true .BEST_MATCH_LAST).validate
      ["x", "y"]).1 = true ∧
    ((newActionSelector [sampleLeafAlt, sampleWideAlt] [] true .BEST_MATCH_LAST).validate
      ["x", "y"]).2.stOf.usedAction = some 0 ∧
    (((newActionSelector [sampleLeafAlt, sampleWideAlt] [] true .BEST_MATCH_LAST).validate
      ["x", "y"]).2.optsOf)[1]? = some sampleWideAlt ∧
    (sampleWideAlt.validate ["x", "y"]).1 = true ∧
    ((sampleWideAlt.validate ["x", "y"]).2).tokensUsedGet = some (.int 2) ∧
    ((sampleLeafAlt.validate ["x", "y"]).2).tokensUsedGet = some (.int 1) := by
  simp [sampleLeafAlt, sampleWideAlt, newActionSelector, newStringParser, newHostAction,
    ANode.validate, ANode.validateStep, ANode.validateOptionsLoop, selectorValidateOptions,
    selectFirstLoop, selectLastLoop, selectBestGtLoop, validationOf, mkMeta, AState.init,
    checkName, ANode.stOf, ANode.optsOf, ANode.kindOf, ANode.metaOf, ANode.tokensUsedGet,
    Kind.isSelector, JNum.le, JNum.add1, JNum.addOpt, JNum.sliceIdx, JNum.optGt]

/-- Claim C2 (counterexample): on the same alternatives and input,
`BEST_MATCH_FIRST` selects index 1 (the greatest-consumption alternative)
while `BEST_MATCH_LAST` selects index 0, so the two modes are not
behaviourally identical. -/
theorem C2_counterexample_modes_differ :
    ((newActionSelector [sampleLeafAlt, sampleWideAlt] [] true .BEST_MATCH_FIRST).validate
      ["x", "y"]).2.stOf.usedAction = some 1 ∧
    ((newActionSelector [sampleLeafAlt, sampleWideAlt] [] true .BEST_MATCH_LAST).validate
      ["x", "y"]).2.stOf.usedAction = some 0 := by
  simp [sampleLeafAlt, sampleWideAlt, newActionSelector, newStringParser, newHostAction,
    ANode.validate, ANode.validateStep, ANode.validateOptionsLoop, selectorValidateOptions,
    selectFirstLoop, selectLastLoop, selectBestGtLoop, validationOf, mkMeta, AState.init,
    checkName, ANode.stOf, ANode.optsOf, ANode.kindOf, ANode.metaOf, ANode.tokensUsedGet,
    Kind.isSelector, JNum.le, JNum.add1, JNum.addOpt, JNum.sliceIdx, JNum.optGt]

/-- Claim C2 (amended): `BEST_MATCH_LAST` is behaviourally identical to
`FIRST` — not to `BEST_MATCH_FIRST` — because the `switch` has no
`BEST_MATCH_LAST` case and falls through to the `default` branch: for every
metadata, prior state, alternative list and input, validation returns the
same boolean and produces the same state and the same updated alternatives
in the two modes. -/
theorem C2_best_match_last_equals_first_mode (m : Meta) (st : AState) (opts : List ANode)
    (input : List String) :
    ((ANode.mk (.selector .BEST_MATCH_LAST) m st opts).validate input).1 =
      ((ANode.mk (.selector .FIRST) m st opts).validate input).1 ∧
    ((ANode.mk (.selector .BEST_MATCH_LAST) m st opts).validate input).2.stOf =
      ((ANode.mk (.selector .FIRST) m st opts).validate input).2.stOf ∧
    ((ANode.mk (.selector .BEST_MATCH_LAST) m st opts).validate input).2.optsOf =
      ((ANode.mk (.selector .FIRST) m st opts).validate input).2.optsOf := by
  simp only [ANode.validate, ANode.validateStep, selectorValidateOptions, Kind.isSelector]
  split
  · split
    · split <;> simp [ANode.stOf, ANode.optsOf]
    · simp [ANode.stOf, ANode.optsOf]
  · split <;> simp [ANode.stOf, ANode.optsOf]

/-- Claim C3 (counterexample): a by-name `StringParser` validated
successfully on `["n", "a"]` and then re-validated on `["zzz", "b"]`
(name mismatch) returns `false` — but its stored `_isValid` remains `true`:
the earlier outcome is not fully overwritten. -/
theorem C3_counterexample_stale_validity_survives :
    (((newStringParser (some ["n"]) true).validate ["n", "a"]).2.validate ["zzz", "b"]).1 =
      false ∧
    (((newStringParser (some ["n"]) true).validate ["n", "a"]).2.validate
      ["zzz", "b"]).2.stOf.isValid = true := by
  simp [newStringParser, ANode.validate, ANode.validateStep, ANode.validateOptionsLoop,
    validationOf, mkMeta, AState.init, checkName, ANode.stOf, Kind.isSelector,
    JNum.le, JNum.add1, JNum.addOpt, JNum.sliceIdx]

/-- Claim C3 (amended): for every node configured to require name matching,
`validate` on a token sequence whose first token matches none of the
aliases returns `false`, clears `_tokensUsed` and `_result`, consumes no
tokens (the stored `_input` and the children are untouched) — but it does
not overwrite `_isValid`, which keeps its value from the previous call. -/
theorem C3_name_mismatch_clears_tokens_and_result_not_validity (k : Kind) (m : Meta)
    (st : AState) (opts : List ANode) (input : List String)
    (h1 : m.isCalledByName = true) (h2 : checkName m.names input.head? = false) :
    ((ANode.mk k m st opts).validate input).1 = false ∧
    ((ANode.mk k m st opts).validate input).2.stOf.tokensUsed = none ∧
    ((ANode.mk k m st opts).validate input).2.stOf.result = none ∧
    ((ANode.mk k m st opts).validate input).2.stOf.input = st.input ∧
    ((ANode.mk k m st opts).validate input).2.stOf.isValid = st.isValid ∧
    ((ANode.mk k m st opts).validate input).2.optsOf = opts := by
  rw [ANode.validate]
  simp [h1, h2, ANode.stOf, ANode.optsOf]
  split <;> simp

/-- Witness for C3: a fresh by-name `StringParser` with alias `n`, validated
against `["zzz", "b"]`. -/
theorem C3_witness :
    (mkMeta (some ["n"]) true).isCalledByName = true ∧
    checkName (mkMeta (some ["n"]) true).names (["zzz", "b"].head?) = false ∧
    ((ANode.mk .stringParser (mkMeta (some ["n"]) true) AState.init []).validate
      ["zzz", "b"]).1 = false :=
  ⟨by decide, by decide,
    (C3_name_mismatch_clears_tokens_and_result_not_validity .stringParser
      (mkMeta (some ["n"]) true) AState.init [] ["zzz", "b"] (by decide) (by decide)).1⟩

/-- Claim C4 (code bug, evaluated at the failing input): an `ActionSelector`
that validated successfully has `isValid = true` but its `tokensUsed`
getter yields `undefined`, because `ActionSelector.validateOptions` never
assigns `this._tokensUsed` — contradicting the getter's own documentation
("number of used input tokens if `this.isValid` is true"). -/
theorem C4_selector_valid_without_tokens :
    ((newActionSelector [newStringParser] []).validate ["a"]).2.stOf.isValid = true ∧
    ((newActionSelector [newStringParser] []).validate ["a"]).2.tokensUsedGet = none := by
  simp [newActionSelector, newStringParser, ANode.validate, ANode.validateStep,
    ANode.validateOptionsLoop, selectorValidateOptions, selectFirstLoop, validationOf,
    mkMeta, AState.init, checkName, ANode.stOf, ANode.optsOf, ANode.kindOf, ANode.metaOf,
    ANode.tokensUsedGet, Kind.isSelector, JNum.le, JNum.add1, JNum.addOpt, JNum.sliceIdx]

/-- Claim C5 (counterexample): a by-name `StringParser` first run on
`["n", "a"]` (producing `"a"`), then run on `["zzz", "b"]` — a sequence its
grammar does not match (`validate` returns `false` on it) — returns
`some "a"`, a value computed from the previous invocation's stored input,
instead of `undefined`: the failed name check left the stale `_isValid`
in place. -/
theorem C5_counterexample_stale_result_returned :
    ((newStringParser (some ["n"]) true).validate ["zzz", "b"]).1 = false ∧
    ((((newStringParser (some ["n"]) true).run (some ["n", "a"])).2).run
      (some ["zzz", "b"])).1 = some (.str "a") := by
  simp [newStringParser, ANode.run, ANode.runCore, ANode.runOptionsLoop, ANode.validate,
    ANode.validateStep, ANode.validateOptionsLoop, validationOf, runnerOf, mkMeta,
    AState.init, checkName, ANode.stOf, ANode.metaOf, Kind.isSelector, JNum.le, JNum.add1,
    OptionResults.empty, OptionResults.push, OptionResults.setNamed]

/-- Claim C5 (amended): whenever the `validate` performed by `run(tokens)`
leaves the node invalid (`_isValid = false` afterwards), `run` returns
`undefined` — the stored result was cleared, so no previous invocation's
value is returned on this path.  (When a failed name check leaves a stale
`_isValid = true`, `run` instead recomputes from the old stored input, as
the counterexample shows.) -/
theorem C5_run_invalid_returns_undefined (a : ANode) (input : List String)
    (h : ((a.run (some input)).2).stOf.isValid = false) :
    (a.run (some input)).1 = none := by
  rw [ANode.run] at h ⊢
  rw [runCore_isValid] at h
  rw [runCore_invalid _ h]
  rcases validate_result_cases a input with ⟨_, h2⟩ | h2
  · rw [h] at h2; cases h2
  · exact h2

/-- Witness for C5: a fresh `NumberParser` run on `["abc"]`. -/
theorem C5_witness :
    (((newNumberParser.run (some ["abc"])).2).stOf.isValid = false) ∧
    (newNumberParser.run (some ["abc"])).1 = none := by
  have hinv : ((newNumberParser.run (some ["abc"])).2).stOf.isValid = false := by
    simp [newNumberParser, ANode.run, ANode.runCore, ANode.runOptionsLoop, ANode.validate,
      ANode.validateStep, ANode.validateOptionsLoop, validationOf, runnerOf, mkMeta,
      AState.init, checkName, ANode.stOf, OptionResults.empty]
    decide
  exact ⟨hinv, C5_run_invalid_returns_undefined _ _ hinv⟩

/-- Claim C6 (counterexample): a host composite with alias names but
validated with name matching disabled (`isCalledByName = false`), holding a
single positional `StringParser`, validates `["a"]` successfully; its
children's `tokensUsed` sum to 1 and no name token was consumed, yet the
node reports `tokensUsed = 2`: `Action.validateOptions` adds 1 whenever
`hasName` is set, not when a name token was required and matched. -/
theorem C6_counterexample_plus_one_without_name_match :
    ((newHostAction true (.hostVal 0) [newStringParser] (some ["n"]) false).validate
      ["a"]).1 = true ∧
    ((newHostAction true (.hostVal 0) [newStringParser] (some ["n"]) false).validate
      ["a"]).2.tokensUsedGet = some (.int 2) ∧
    (((newHostAction true (.hostVal 0) [newStringParser] (some ["n"]) false).validate
      ["a"]).2.optsOf).map ANode.tokensUsedGet = [some (.int 1)] := by
  simp [newHostAction, newStringParser, ANode.validate, ANode.validateStep,
    ANode.validateOptionsLoop, validationOf, mkMeta, AState.init, checkName, ANode.stOf,
    ANode.optsOf, ANode.kindOf, ANode.metaOf, ANode.tokensUsedGet, Kind.isSelector,
    JNum.le, JNum.add1, JNum.addOpt, JNum.sliceIdx]

/-- Claim C6 (amended): for a composite `Action` whose children are freshly
constructed leaves, a successful `validate` leaves `tokensUsed` equal to
the sum of the children's reported `tokensUsed` plus 1 exactly when the
node has alias names (`hasName`) — regardless of whether name matching was
enabled or a name token was consumed — and every child reports its leaf
weight. -/
theorem C6_tokensUsed_sum_children_plus_hasName (hval : Bool) (hres : RVal) (m : Meta)
    (st : AState) (opts : List ANode) (input : List String)
    (hleaf : ∀ o ∈ opts, isFreshLeaf o)
    (hsucc : ((ANode.mk (.host hval hres) m st opts).validate input).1 = true) :
    ((ANode.mk (.host hval hres) m st opts).validate input).2.tokensUsedGet =
      some (.int ((opts.map leafWeight).sum + (if m.hasName then 1 else 0))) ∧
    (((ANode.mk (.host hval hres) m st opts).validate input).2.optsOf).map
      ANode.tokensUsedGet = opts.map (fun o => some (.int (leafWeight o))) := by
  rw [ANode.validate] at hsucc ⊢
  simp only [Kind.isSelector, Bool.false_eq_true, if_false] at hsucc ⊢
  by_cases hc : m.isCalledByName = true
  · rw [if_pos hc] at hsucc ⊢
    by_cases hn : checkName m.names input.head? = true
    · rw [if_pos hn] at hsucc ⊢
      rw [ANode.validateStep] at hsucc ⊢
      all_goals try { intro a ha; cases ha }
      · dsimp only at hsucc ⊢
        simp only [Option.getD_some] at hsucc ⊢
        by_cases hok : (ANode.validateOptionsLoop (input.drop 1) opts (.int 0)).2.1 = true
        · have hloop := validateOptionsLoop_leaf_sum opts (input.drop 1) 0 hleaf
            (Nat.zero_le _) hok
          rw [if_pos hok] at hsucc ⊢
          simp only [validationOf] at hsucc ⊢
          simp only [ANode.tokensUsedGet, ANode.kindOf, ANode.stOf, ANode.metaOf,
            ANode.optsOf] at hsucc ⊢
          simp only [hsucc, if_true]
          constructor
          · rw [hloop.1]
            cases hm : m.hasName <;> simp [hm, JNum.add1]
          · exact hloop.2.2
        · rw [if_neg hok] at hsucc
          simp at hsucc
    · rw [if_neg hn] at hsucc
      simp at hsucc
  · rw [if_neg hc] at hsucc ⊢
    rw [ANode.validateStep] at hsucc ⊢
    all_goals try { intro a ha; cases ha }
    · dsimp only at hsucc ⊢
      simp only [Option.getD_some] at hsucc ⊢
      by_cases hok : (ANode.validateOptionsLoop input opts (.int 0)).2.1 = true
      · have hloop := validateOptionsLoop_leaf_sum opts input 0 hleaf
          (Nat.zero_le _) hok
        rw [if_pos hok] at hsucc ⊢
        simp only [validationOf] at hsucc ⊢
        simp only [ANode.tokensUsedGet, ANode.kindOf, ANode.stOf, ANode.metaOf,
          ANode.optsOf] at hsucc ⊢
        simp only [hsucc, if_true]
        constructor
        · rw [hloop.1]
          cases hm : m.hasName <;> simp [hm, JNum.add1]
        · exact hloop.2.2
      · rw [if_neg hok] at hsucc
        simp at hsucc

/-- Witness for C6: the counterexample node (named, name matching disabled,
one leaf child) on `["a"]`. -/
theorem C6_witness :
    (∀ o ∈ [newStringParser], isFreshLeaf o) ∧
    ((ANode.mk (.host true (.hostVal 0)) (mkMeta (some ["n"]) false) AState.init
      [newStringParser]).validate ["a"]).1 = true ∧
    ((ANode.mk (.host true (.hostVal 0)) (mkMeta (some ["n"]) false) AState.init
      [newStringParser]).validate ["a"]).2.tokensUsedGet =
      some (.int (([newStringParser].map leafWeight).sum +
        (if (mkMeta (some ["n"]) false).hasName then 1 else 0))) := by
  have hleaf : ∀ o ∈ [newStringParser], isFreshLeaf o := by
    intro o ho
    simp only [List.mem_singleton] at ho
    subst ho
    exact ⟨Or.inr rfl, rfl, rfl⟩
  have hsucc : ((ANode.mk (.host true (.hostVal 0)) (mkMeta (some ["n"]) false) AState.init
      [newStringParser]).validate ["a"]).1 = true := by
    simp [newStringParser, ANode.validate, ANode.validateStep, ANode.validateOptionsLoop,
      validationOf, mkMeta, AState.init, checkName, ANode.stOf, Kind.isSelector,
      JNum.le, JNum.add1, JNum.addOpt, JNum.sliceIdx, ANode.tokensUsedGet, ANode.kindOf,
      ANode.metaOf]
  exact ⟨hleaf, hsucc,
    (C6_tokensUsed_sum_children_plus_hasName true (.hostVal 0) (mkMeta (some ["n"]) false)
      AState.init [newStringParser] ["a"] hleaf hsucc).1⟩

/-- Claim C7 (counterexample): the token `"0x10"` is not base-10 notation,
yet `Number("0x10") = 16` is not `NaN`, so a fresh positional
`NumberParser` validates `["0x10"]` successfully. -/
theorem C7_counterexample_hex_accepted :
    ((newNumberParser).validate ["0x10"]).1 = true ∧
    ((newNumberParser).validate ["0x10"]).2.stOf.isValid = true := by
  simp [newNumberParser, ANode.validate, ANode.validateStep, ANode.validateOptionsLoop,
    validationOf, mkMeta, AState.init, checkName, ANode.stOf, Kind.isSelector,
    JNum.le, JNum.add1]
  decide

/-- Claim C7 (amended): a positional `NumberParser` on a one-token input
validates successfully exactly when `Number(token)` is not `NaN` — i.e. the
token matches the ECMAScript `StringNumericLiteral` grammar, which includes
decimal, hex `0x`, octal `0o`, binary `0b`, exponent and `Infinity` forms
and the empty string — and on failure it is left invalid with no result and
no reported token consumption. -/
theorem C7_number_leaf_valid_iff_js_number (m : Meta) (st : AState) (t : String)
    (h : m.isCalledByName = false) :
    ((ANode.mk .numberParser m st []).validate [t]).1 = !(jsStrIsNaN t) ∧
    ((ANode.mk .numberParser m st []).validate [t]).2.stOf.isValid = !(jsStrIsNaN t) ∧
    (jsStrIsNaN t = true →
      ((ANode.mk .numberParser m st []).validate [t]).2.stOf.result = none ∧
      ((ANode.mk .numberParser m st []).validate [t]).2.tokensUsedGet = none) := by
  rw [ANode.validate]
  cases hn : jsStrIsNaN t <;>
    simp [h, hn, ANode.validateStep, ANode.validateOptionsLoop, validationOf, Kind.isSelector,
      ANode.stOf, ANode.kindOf, ANode.metaOf, ANode.tokensUsedGet, JNum.le, JNum.add1]

/-- Witness for C7: a fresh positional `NumberParser` on `["abc"]`
(not a number) and on `["12"]` (a number). -/
theorem C7_witness :
    ((mkMeta none false).isCalledByName = false) ∧
    ((ANode.mk .numberParser (mkMeta none false) AState.init []).validate ["abc"]).1 =
      !(jsStrIsNaN "abc") ∧
    ((ANode.mk .numberParser (mkMeta none false) AState.init []).validate ["12"]).1 =
      !(jsStrIsNaN "12") :=
  ⟨by decide,
    (C7_number_leaf_valid_iff_js_number (mkMeta none false) AState.init "abc" (by decide)).1,
    (C7_number_leaf_valid_iff_js_number (mkMeta none false) AState.init "12" (by decide)).1⟩

/-- Claim C8 (counterexample): a `StringParser` configured to be called by
name (`names = ["s"]`, `isCalledByName = true`) validates `["s", "x"]`
successfully and reports `tokensUsed = 2`, not 1: the `SimpleOption` getter
counts the name token. -/
theorem C8_counterexample_by_name_leaf_uses_two_tokens :
    ((newStringParser (some ["s"]) true).validate ["s", "x"]).1 = true ∧
    ((newStringParser (some ["s"]) true).validate ["s", "x"]).2.tokensUsedGet =
      some (.int 2) := by
  simp [newStringParser, ANode.validate, ANode.validateStep, ANode.validateOptionsLoop,
    validationOf, mkMeta, AState.init, checkName, ANode.stOf, ANode.kindOf, ANode.metaOf,
    ANode.tokensUsedGet, Kind.isSelector, JNum.le, JNum.add1]

/-- Claim C8 (amended): for every leaf option (`NumberParser` or
`StringParser`) in any state, the `tokensUsed` getter is defined exactly
when `isValid` is true, and when defined it equals 1 for a positional
leaf and 2 for a leaf configured to be called by name. -/
theorem C8_leaf_tokensUsed_formula (k : Kind) (m : Meta) (st : AState) (opts : List ANode)
    (h : k = .numberParser ∨ k = .stringParser) :
    (ANode.mk k m st opts).tokensUsedGet =
      (if st.isValid then some (.int (if m.isCalledByName then 2 else 1)) else none) := by
  rcases h with h | h <;> subst h <;>
    simp [ANode.tokensUsedGet, ANode.stOf, ANode.kindOf, ANode.metaOf]

/-- Witness for C8: a valid by-name `StringParser` state reports 2. -/
theorem C8_witness :
    (Kind.stringParser = Kind.numberParser ∨ Kind.stringParser = Kind.stringParser) ∧
    (ANode.mk .stringParser ⟨true, ["s"], true⟩
        { AState.init with isValid := true } []).tokensUsedGet =
      (if ({ AState.init with isValid := true } : AState).isValid then
        some (.int (if (⟨true, ["s"], true⟩ : Meta).isCalledByName then 2 else 1)) else none) :=
  ⟨Or.inr rfl,
    C8_leaf_tokensUsed_formula .stringParser ⟨true, ["s"], true⟩
      { AState.init with isValid := true } [] (Or.inr rfl)⟩

/-- Claim C9 (counterexample): a selector in `LAST` mode over two positional
`StringParser`s validates `["a"]` (both alternatives valid, index 1
selected; after validation both children's results are still cleared), and
then `run` executes every alternative — the non-selected alternative at
index 0 ends up with a computed result — and the selector's value mapping
(`_optionResults`) collects both alternatives' results, while each
alternative's own mapping is empty; the selector does adopt the selected
alternative's result. -/
theorem C9_counterexample_all_alternatives_run :
    ((((newActionSelector [newStringParser, newStringParser] [] true .LAST).validate
      ["a"]).2.optsOf).map (fun o => o.stOf.result) = [none, none]) ∧
    ((newActionSelector [newStringParser, newStringParser] [] true .LAST).run
      (some ["a"])).2.stOf.usedAction = some 1 ∧
    ((newActionSelector [newStringParser, newStringParser] [] true .LAST).run
      (some ["a"])).1 = some (.str "a") ∧
    ((((newActionSelector [newStringParser, newStringParser] [] true .LAST).run
      (some ["a"])).2.optsOf).map (fun o => o.stOf.result) =
      [some (.str "a"), some (.str "a")]) ∧
    ((newActionSelector [newStringParser, newStringParser] [] true .LAST).run
      (some ["a"])).2.stOf.optionResults.items = [some (.str "a"), some (.str "a")] ∧
    ((((newActionSelector [newStringParser, newStringParser] [] true .LAST).run
      (some ["a"])).2.optsOf).map (fun o => o.stOf.optionResults)) =
      [OptionResults.empty, OptionResults.empty] := by
  simp [newActionSelector, newStringParser, ANode.run, ANode.runCore, ANode.runOptionsLoop,
    ANode.validate, ANode.validateStep, ANode.validateOptionsLoop, selectorValidateOptions,
    selectFirstLoop, selectLastLoop, validationOf, runnerOf, mkMeta, AState.init, checkName,
    ANode.stOf, ANode.optsOf, ANode.kindOf, ANode.metaOf, Kind.isSelector, JNum.le,
    JNum.add1, JNum.addOpt, JNum.sliceIdx, OptionResults.empty, OptionResults.push,
    OptionResults.setNamed]

/-- Claim C9 (amended): for a valid selector with `_usedAction = i`,
`run()` adopts the selected alternative's result as its own, but it does
not delegate exclusively: the inherited `runOptions` runs every
alternative, and the selector's `_optionResults` collects all alternatives'
results (one entry per alternative), not just the selected one's mapping. -/
theorem C9_selector_run_adopts_selected_result (mode : SelectionMode) (m : Meta)
    (st : AState) (opts : List ANode) (i : Nat)
    (hv : st.isValid = true) (hu : st.usedAction = some i) (hi : i < opts.length) :
    ((ANode.mk (.selector mode) m st opts).run none).2.stOf.usedAction = some i ∧
    (∃ o, (((ANode.mk (.selector mode) m st opts).run none).2.optsOf)[i]? = some o ∧
      ((ANode.mk (.selector mode) m st opts).run none).1 = o.stOf.result) ∧
    ((ANode.mk (.selector mode) m st opts).run none).2.stOf.optionResults.items =
      (((ANode.mk (.selector mode) m st opts).run none).2.optsOf).map
        (fun o => o.stOf.result) ∧
    (((ANode.mk (.selector mode) m st opts).run none).2.optsOf).length = opts.length := by
  have hspec := runOptionsLoop_spec opts OptionResults.empty
  have hlen : (ANode.runOptionsLoop opts OptionResults.empty).1.length = opts.length :=
    hspec.2
  have hlt : i < (ANode.runOptionsLoop opts OptionResults.empty).1.length := by
    rw [hlen]; exact hi
  rw [ANode.run, ANode.runCore]
  simp only [ANode.stOf, hv, if_true, ANode.optsOf]
  refine ⟨hu, ⟨(ANode.runOptionsLoop opts OptionResults.empty).1[i], ?_, ?_⟩, ?_, hlen⟩
  · exact List.getElem?_eq_getElem hlt
  · simp [runnerOf, hu, List.getElem?_eq_getElem hlt, ANode.stOf]
  · simpa [OptionResults.empty] using hspec.1

/-- Witness for C9: a valid selector state selecting index 0 over one
alternative. -/
theorem C9_witness :
    (({ AState.init with isValid := true, usedAction := some 0 } : AState).isValid = true) ∧
    (({ AState.init with isValid := true, usedAction := some 0 } : AState).usedAction =
      some 0) ∧
    (0 < [newStringParser].length) ∧
    ((ANode.mk (.selector .FIRST) (mkMeta (some []) true)
      { AState.init with isValid := true, usedAction := some 0 }
      [newStringParser]).run none).2.stOf.usedAction = some 0 :=
  ⟨rfl, rfl, by decide,
    (C9_selector_run_adopts_selected_result .FIRST (mkMeta (some []) true)
      { AState.init with isValid := true, usedAction := some 0 }
      [newStringParser] 0 rfl rfl (by decide)).1⟩

/-- Claim C10: in the `Action` hierarchy, whenever `validate(input)` returns
`false`, the stored `_result` is `undefined` afterwards: `validate` clears
it on entry and only a successful `NumberParser.validation` re-sets it, so
a failed re-validation never exposes a stale result — even on an immediate
name mismatch. -/
theorem C10_validate_false_clears_result (a : ANode) (input : List String)
    (h : (a.validate input).1 = false) :
    (a.validate input).2.stOf.result = none := by
  rcases validate_result_cases a input with ⟨h1, _⟩ | h2
  · rw [h] at h1; cases h1
  · exact h2

/-- Witness for C10: a previously successful by-name `StringParser`
re-validated with a mismatching name still has no stale result. -/
theorem C10_witness :
    ((((newStringParser (some ["n"]) true).run (some ["n", "a"])).2).validate
      ["zzz", "b"]).1 = false ∧
    ((((newStringParser (some ["n"]) true).run (some ["n", "a"])).2).validate
      ["zzz", "b"]).2.stOf.result = none := by
  have hfalse : ((((newStringParser (some ["n"]) true).run (some ["n", "a"])).2).validate
      ["zzz", "b"]).1 = false := by
    simp [newStringParser, ANode.run, ANode.runCore, ANode.runOptionsLoop, ANode.validate,
      ANode.validateStep, ANode.validateOptionsLoop, validationOf, runnerOf, mkMeta,
      AState.init, checkName, ANode.stOf, ANode.metaOf, Kind.isSelector, JNum.le, JNum.add1,
      OptionResults.empty, OptionResults.push, OptionResults.setNamed]
  exact ⟨hfalse, C10_validate_false_clears_result _ _ hfalse⟩

end Commandz
